import Mathlib

/-!
Verification of the progress-tracking and quiz-scoring core of the
react-hooks-portal repository.

The progress store (`LearningProvider` in the source) keeps a map from topic
(hook) id to a progress record plus a global settings record, persists both to
browser local storage, and exposes aggregate queries.  The quiz engine
(`QuizModal` in the source) drives a learner through a question list and
computes a percentage score.

Modelling conventions:
* JavaScript objects used as string-keyed dictionaries become association
  lists `List (String × _)` with a `setKey`/`getRec` interface mirroring
  object spread and property lookup.
* JavaScript numbers holding integer quantities become `Nat`/`Int`;
  `Math.round(x)` on a non-negative rational `a / b` is the exact
  `(2*a + b) / (2*b)` (floor of `a/b + 1/2`), which agrees with the
  double-precision computation at every value the program produces.
  The one place the source divides zero by zero (`calculateScore` on an
  empty question list, giving `NaN`) is modelled by `Option Nat` with
  `none` standing for `NaN`.
* A `Partial<T>` update object becomes a structure of `Option` fields;
  object spread `{...defaults, ...prev, ...updates}` becomes a field-wise
  merge where a `some` field of the update wins.
* React state plus the two persistence `useEffect`s become a `StoreState`
  record carrying the in-memory map and settings together with the two
  local-storage entries, and each provider operation is a function on
  `StoreState` that includes the effects the mutation triggers (an effect
  re-runs exactly when one of its dependencies changed).
-/

/-- Per-topic progress record, from `LearningProgress` in the source.
`timeSpent` is an `Int` because the source stores an arbitrary JS number
written by callers; `lastVisited` is a timestamp modelled as `Nat`. -/
structure ProgressRecord where
  completed : Bool
  timeSpent : Int
  lastVisited : Nat
  notes : String
  bookmarked : Bool
deriving DecidableEq, Repr

/-- A `Partial<LearningProgress[string]>` argument to `updateProgress`:
each field is optionally present. -/
structure ProgressUpdate where
  completed : Option Bool := none
  timeSpent : Option Int := none
  lastVisited : Option Nat := none
  notes : Option String := none
  bookmarked : Option Bool := none
deriving DecidableEq, Repr

/-- The documented default record created lazily for a topic:
`completed: false, timeSpent: 0, lastVisited: new Date(), notes: '',
bookmarked: false`.  `now` is the creation-time timestamp. -/
def defaultRecord (now : Nat) : ProgressRecord :=
  { completed := false, timeSpent := 0, lastVisited := now,
    notes := "", bookmarked := false }

/-- Field-wise merge `{...base, ...u}`: a present field of `u` wins. -/
def applyUpdate (base : ProgressRecord) (u : ProgressUpdate) : ProgressRecord :=
  { completed := u.completed.getD base.completed,
    timeSpent := u.timeSpent.getD base.timeSpent,
    lastVisited := u.lastVisited.getD base.lastVisited,
    notes := u.notes.getD base.notes,
    bookmarked := u.bookmarked.getD base.bookmarked }

/-- The progress map `LearningProgress`: a JS object keyed by hook id. -/
abbrev ProgressMap := List (String × ProgressRecord)

/-- Property lookup `progress[hookId]` (first binding wins; keys are unique
in every map the operations build). -/
def getRec (k : String) : ProgressMap → Option ProgressRecord
  | [] => none
  | (k', v) :: rest => if k' = k then some v else getRec k rest

/-- Property write `{...prev, [hookId]: rec}`: replaces the binding in place
if present, otherwise appends it. -/
def setKey (k : String) (v : ProgressRecord) : ProgressMap → ProgressMap
  | [] => [(k, v)]
  | (k', v') :: rest =>
    if k' = k then (k, v) :: rest else (k', v') :: setKey k v rest

/-- `updateProgress` from the source: merges `u` onto the existing record for
`hookId`, or onto the defaults if none exists, and stores the result.
`now` is the timestamp `new Date()` used for the default `lastVisited`. -/
def updateProgress (now : Nat) (hookId : String) (u : ProgressUpdate)
    (m : ProgressMap) : ProgressMap :=
  setKey hookId (applyUpdate ((getRec hookId m).getD (defaultRecord now)) u) m

/-- One `updateProgress` invocation: its timestamp, target topic and payload. -/
structure Call where
  now : Nat
  hookId : String
  upd : ProgressUpdate
deriving DecidableEq, Repr

/-- Apply a sequence of `updateProgress` calls in order. -/
def applyCalls (calls : List Call) (m : ProgressMap) : ProgressMap :=
  calls.foldl (fun acc c => updateProgress c.now c.hookId c.upd acc) m

/-- The subsequence of calls targeting topic `t`. -/
def callsFor (t : String) (calls : List Call) : List Call :=
  calls.filter (fun c => c.hookId == t)

/-- Last-written value of the field projected by `f` over a call sequence
(later calls override earlier ones); `none` if the field never appeared. -/
def lastSet {α : Type} (f : ProgressUpdate → Option α) : List Call → Option α
  | [] => none
  | c :: cs =>
    match lastSet f cs with
    | some v => some v
    | none => f c.upd

/-- Folding a call sequence for one topic over an existing record. -/
def mergeFold (r : ProgressRecord) (cs : List Call) : ProgressRecord :=
  cs.foldl (fun acc c => applyUpdate acc c.upd) r

/-- The effect of a one-topic call sequence on that topic's (optional)
record: the first call creates the record from the defaults. -/
def applySingle : Option ProgressRecord → List Call → Option ProgressRecord
  | r, [] => r
  | r, c :: cs =>
    applySingle (some (applyUpdate (r.getD (defaultRecord c.now)) c.upd)) cs

/-- `theme` values of `LearningSettings`. -/
inductive Theme where
  | light
  | dark
  | auto
deriving DecidableEq, Repr

/-- `difficulty` values of `LearningSettings`. -/
inductive Difficulty where
  | beginner
  | intermediate
  | advanced
  | all
deriving DecidableEq, Repr

/-- Global settings record, from `LearningSettings` in the source. -/
structure LearningSettings where
  theme : Theme
  difficulty : Difficulty
  showHints : Bool
  autoSave : Bool
  soundEnabled : Bool
deriving DecidableEq, Repr

/-- The fallback settings used when local storage holds nothing. -/
def defaultSettings : LearningSettings :=
  { theme := Theme.light, difficulty := Difficulty.all,
    showHints := true, autoSave := true, soundEnabled := false }

/-- A `Partial<LearningSettings>` argument to `updateSettings`. -/
structure SettingsUpdate where
  theme : Option Theme := none
  difficulty : Option Difficulty := none
  showHints : Option Bool := none
  autoSave : Option Bool := none
  soundEnabled : Option Bool := none
deriving DecidableEq, Repr

/-- Field-wise merge `{...prev, ...updates}` for settings. -/
def applySettingsUpdate (base : LearningSettings) (u : SettingsUpdate) :
    LearningSettings :=
  { theme := u.theme.getD base.theme,
    difficulty := u.difficulty.getD base.difficulty,
    showHints := u.showHints.getD base.showHints,
    autoSave := u.autoSave.getD base.autoSave,
    soundEnabled := u.soundEnabled.getD base.soundEnabled }

/-- `Math.round(a / b)` for non-negative `a` and positive `b`, computed
exactly: `⌊a/b + 1/2⌋`. -/
def roundDiv (a b : Nat) : Nat := (2 * a + b) / (2 * b)

/-- Number of records in the map with `completed = true`
(`Object.values(progress).filter(p => p.completed).length`). -/
def completedCount (m : ProgressMap) : Nat :=
  (m.filter (fun e => e.2.completed)).length

/-- `getCompletionPercentage` from the source:
`Math.round((completedHooks / totalHooks) * 100)` with the hardcoded
`totalHooks = 16`. -/
def getCompletionPercentage (m : ProgressMap) : Nat :=
  roundDiv (completedCount m * 100) 16

/-- `getTotalTimeSpent` from the source:
`Object.values(progress).reduce((total, p) => total + p.timeSpent, 0)`. -/
def getTotalTimeSpent (m : ProgressMap) : Int :=
  m.foldl (fun total e => total + e.2.timeSpent) 0

/-- The provider's full observable state: the two React states together with
the two local-storage entries `learning-progress` and `learning-settings`
(`none` = key absent). -/
structure StoreState where
  progress : ProgressMap
  settings : LearningSettings
  storedProgress : Option ProgressMap
  storedSettings : Option LearningSettings
deriving DecidableEq, Repr

/-- An `updateProgress` call at provider level: after the state update, the
progress-persistence effect runs (its `progress` dependency changed) and
writes the new map to storage exactly when `autoSave` is on. -/
def updateProgressOp (now : Nat) (hookId : String) (u : ProgressUpdate)
    (s : StoreState) : StoreState :=
  let p' := updateProgress now hookId u s.progress
  { s with
    progress := p',
    storedProgress := if s.settings.autoSave then some p' else s.storedProgress }

/-- An `updateSettings` call at provider level: the settings-persistence
effect always runs (its dependency changed) and writes the merged settings;
the progress-persistence effect re-runs only when its `settings.autoSave`
dependency changed, and then writes the (unchanged) progress map when the
new `autoSave` is on. -/
def updateSettingsOp (u : SettingsUpdate) (s : StoreState) : StoreState :=
  let st' := applySettingsUpdate s.settings u
  { s with
    settings := st',
    storedSettings := some st',
    storedProgress :=
      if st'.autoSave && !s.settings.autoSave then some s.progress
      else s.storedProgress }

/-- `resetProgress` at provider level: sets the map to `{}` and removes the
`learning-progress` storage key; the progress-persistence effect then runs
(its `progress` dependency changed) and, when `autoSave` is on, immediately
writes the empty map back to storage. -/
def resetProgressOp (s : StoreState) : StoreState :=
  { s with
    progress := [],
    storedProgress := if s.settings.autoSave then some [] else none }

/-- A quiz question, from the `Question` interface in `QuizModal`. -/
structure Question where
  id : String
  question : String
  options : List String
  correctAnswer : Nat
  explanation : String
deriving DecidableEq, Repr

/-- The modal's session state: `currentQuestion`, `selectedAnswers` (a JS
array that may contain holes, so entries are `Option Nat`), `showResults`
and `quizCompleted`. -/
structure QuizState where
  currentQuestion : Nat
  selectedAnswers : List (Option Nat)
  showResults : Bool
  quizCompleted : Bool
deriving DecidableEq, Repr

/-- The state a freshly opened quiz starts in (also the state `resetQuiz`
restores). -/
def initialQuizState : QuizState :=
  { currentQuestion := 0, selectedAnswers := [], showResults := false,
    quizCompleted := false }

/-- `selectedAnswers[i]` — reading past the end gives `undefined` (`none`). -/
def answerAt (sels : List (Option Nat)) (i : Nat) : Option Nat :=
  (sels.getD i none)

/-- `correct` as counted by `calculateScore`: the number of question
positions whose stored selection equals that question's `correctAnswer`.
An unanswered position (`none`, JS `undefined`) never matches. -/
def correctCount : List Question → List (Option Nat) → Nat
  | [], _ => 0
  | _ :: qs, [] => correctCount qs []
  | q :: qs, s :: ss =>
    (if s = some q.correctAnswer then 1 else 0) + correctCount qs ss

/-- `calculateScore` from the source:
`Math.round((correct / questions.length) * 100)`.  On an empty question
list the JS expression is `Math.round((0/0)*100) = NaN`, modelled `none`;
otherwise the exact rounded percentage. -/
def calculateScore (qs : List Question) (sels : List (Option Nat)) :
    Option Nat :=
  if qs.length = 0 then none
  else some (roundDiv (correctCount qs sels * 100) qs.length)

/-- `handleAnswerSelect` from the source: copies the array and writes
`answerIndex` at position `currentQuestion`, extending with holes if that
position is past the end. -/
def handleAnswerSelect (s : QuizState) (answerIndex : Nat) : QuizState :=
  let rec writeAt : List (Option Nat) → Nat → List (Option Nat)
    | _ :: rest, 0 => some answerIndex :: rest
    | [], 0 => [some answerIndex]
    | [], i + 1 => none :: writeAt [] i
    | a :: rest, i + 1 => a :: writeAt rest i
  { s with selectedAnswers := writeAt s.selectedAnswers s.currentQuestion }

/-- `nextQuestion` from the source.  Returns the new state and, when the
session finishes, the score passed to `onComplete` (`none` here = no
completion signal; `some sc` = `onComplete(sc)` where `sc` itself is the
possibly-NaN score).  The guard `currentQuestion < questions.length - 1`
uses truncated `Nat` subtraction, which agrees with the JS comparison for
every reachable (non-negative) index. -/
def nextQuestion (qs : List Question) (s : QuizState) :
    QuizState × Option (Option Nat) :=
  if s.currentQuestion < qs.length - 1 then
    ({ s with currentQuestion := s.currentQuestion + 1 }, none)
  else
    ({ s with showResults := true, quizCompleted := true },
      some (calculateScore qs s.selectedAnswers))

/-- `previousQuestion` from the source: decrement, saturating at 0. -/
def previousQuestion (s : QuizState) : QuizState :=
  if s.currentQuestion > 0 then
    { s with currentQuestion := s.currentQuestion - 1 }
  else s

/-- `resetQuiz` from the source. -/
def resetQuiz (_ : QuizState) : QuizState := initialQuizState

/-- `handleQuizComplete` from `HookLearning`: on quiz completion the topic's
`completed` flag is overwritten with `score >= 70`. -/
def handleQuizComplete (now : Nat) (hookId : String) (score : Nat)
    (m : ProgressMap) : ProgressMap :=
  updateProgress now hookId { completed := some (decide (70 ≤ score)) } m

/-- The teardown effect in `HookLearning`: on leaving a topic it writes
`(progress[selectedHook]?.timeSpent || 0) + elapsed`, where `elapsed` is
the non-negative whole number of seconds the view was open. -/
def closeTopic (now : Nat) (hookId : String) (elapsed : Nat)
    (m : ProgressMap) : ProgressMap :=
  updateProgress now hookId
    { timeSpent := some (((getRec hookId m).map (fun r => r.timeSpent)).getD 0
        + (elapsed : Int)) } m

-- Concrete instances used to exercise the operations.

/-- The spec's merge example: bookmark topic `a`, then save a note on it. -/
def demoCalls : List Call :=
  [ { now := 0, hookId := "a", upd := { bookmarked := some true } },
    { now := 1, hookId := "a", upd := { notes := some "x" } } ]

/-- Seventeen distinct topics, each marked completed through the public
`updateProgress` entry point. -/
def seventeenCalls : List Call :=
  (List.range 17).map
    (fun i => { now := 0, hookId := toString i, upd := { completed := some true } })

/-- Four distinct topics marked completed. -/
def fourCalls : List Call :=
  (List.range 4).map
    (fun i => { now := 0, hookId := toString i, upd := { completed := some true } })

/-- The spec's 3-question quiz with correct answers `[1, 2, 0]`. -/
def demoQuestions : List Question :=
  [ { id := "q1", question := "first", options := ["a", "b", "c"],
      correctAnswer := 1, explanation := "" },
    { id := "q2", question := "second", options := ["a", "b", "c"],
      correctAnswer := 2, explanation := "" },
    { id := "q3", question := "third", options := ["a", "b", "c"],
      correctAnswer := 0, explanation := "" } ]

/-- A session sitting on the last question of `demoQuestions`. -/
def quizAtLast : QuizState :=
  { currentQuestion := 2, selectedAnswers := [some 1, some 2],
    showResults := false, quizCompleted := false }

/-- A provider state whose user has switched `autoSave` off. -/
def demoStateOff : StoreState :=
  { progress := [],
    settings := { defaultSettings with autoSave := false },
    storedProgress := some [],
    storedSettings := none }

/-- A provider state with default settings (`autoSave` on) and one visited,
persisted topic. -/
def demoStateOn : StoreState :=
  { progress := [("a", defaultRecord 0)],
    settings := defaultSettings,
    storedProgress := some [("a", defaultRecord 0)],
    storedSettings := some defaultSettings }
/-- A one-topic map whose record was (manually) marked completed. -/
def demoCompletedMap : ProgressMap :=
  [("a", { completed := true, timeSpent := 0, lastVisited := 0,
           notes := "", bookmarked := false })]

-- Lookup / update interaction lemmas.

theorem getRec_setKey_self (k : String) (v : ProgressRecord) (m : ProgressMap) :
    getRec k (setKey k v m) = some v := by
  induction m with
  | nil => simp [setKey, getRec]
  | cons e rest ih =>
    by_cases h : e.1 = k
    · simp [setKey, h, getRec]
    · simp [setKey, h, getRec, ih]

theorem getRec_setKey_ne (k t : String) (v : ProgressRecord) (m : ProgressMap)
    (h : k ≠ t) : getRec t (setKey k v m) = getRec t m := by
  induction m with
  | nil => simp [setKey, getRec, h]
  | cons e rest ih =>
    by_cases h' : e.1 = k
    · simp [setKey, h', getRec, h]
    · simp [setKey, h', getRec, ih]

theorem getRec_updateProgress_self (now : Nat) (k : String) (u : ProgressUpdate)
    (m : ProgressMap) :
    getRec k (updateProgress now k u m) =
      some (applyUpdate ((getRec k m).getD (defaultRecord now)) u) :=
  getRec_setKey_self ..

theorem getRec_updateProgress_ne (now : Nat) (k t : String) (u : ProgressUpdate)
    (m : ProgressMap) (h : k ≠ t) :
    getRec t (updateProgress now k u m) = getRec t m :=
  getRec_setKey_ne _ _ _ _ h

/-- A call sequence acts on each topic's record independently, through
`applySingle` on the subsequence targeting that topic. -/
theorem getRec_applyCalls (calls : List Call) (t : String) (m : ProgressMap) :
    getRec t (applyCalls calls m) = applySingle (getRec t m) (callsFor t calls) := by
  induction calls generalizing m with
  | nil => rfl
  | cons c cs ih =>
    have hstep : applyCalls (c :: cs) m
        = applyCalls cs (updateProgress c.now c.hookId c.upd m) := rfl
    by_cases h : c.hookId = t
    · subst h
      have hf : callsFor c.hookId (c :: cs) = c :: callsFor c.hookId cs := by
        simp [callsFor]
      rw [hstep, ih, getRec_updateProgress_self, hf]
      rfl
    · have hf : callsFor t (c :: cs) = callsFor t cs := by
        simp [callsFor, List.filter_cons, h]
      rw [hstep, ih, getRec_updateProgress_ne _ _ _ _ _ h, hf]

theorem applySingle_some (r : ProgressRecord) (cs : List Call) :
    applySingle (some r) cs = some (mergeFold r cs) := by
  induction cs generalizing r with
  | nil => rfl
  | cons c cs ih => simp [applySingle, mergeFold, List.foldl_cons, ih]

theorem mergeFold_completed (r : ProgressRecord) (cs : List Call) :
    (mergeFold r cs).completed =
      (lastSet (fun u => u.completed) cs).getD r.completed := by
  induction cs generalizing r with
  | nil => rfl
  | cons c cs ih =>
    simp only [mergeFold, List.foldl_cons, lastSet]
    rw [← mergeFold, ih]
    cases h : lastSet (fun u => u.completed) cs <;> simp [h, applyUpdate]

theorem mergeFold_timeSpent (r : ProgressRecord) (cs : List Call) :
    (mergeFold r cs).timeSpent =
      (lastSet (fun u => u.timeSpent) cs).getD r.timeSpent := by
  induction cs generalizing r with
  | nil => rfl
  | cons c cs ih =>
    simp only [mergeFold, List.foldl_cons, lastSet]
    rw [← mergeFold, ih]
    cases h : lastSet (fun u => u.timeSpent) cs <;> simp [h, applyUpdate]

theorem mergeFold_notes (r : ProgressRecord) (cs : List Call) :
    (mergeFold r cs).notes =
      (lastSet (fun u => u.notes) cs).getD r.notes := by
  induction cs generalizing r with
  | nil => rfl
  | cons c cs ih =>
    simp only [mergeFold, List.foldl_cons, lastSet]
    rw [← mergeFold, ih]
    cases h : lastSet (fun u => u.notes) cs <;> simp [h, applyUpdate]

theorem mergeFold_bookmarked (r : ProgressRecord) (cs : List Call) :
    (mergeFold r cs).bookmarked =
      (lastSet (fun u => u.bookmarked) cs).getD r.bookmarked := by
  induction cs generalizing r with
  | nil => rfl
  | cons c cs ih =>
    simp only [mergeFold, List.foldl_cons, lastSet]
    rw [← mergeFold, ih]
    cases h : lastSet (fun u => u.bookmarked) cs <;> simp [h, applyUpdate]


theorem lastSet_cons_getD {α : Type} (f : ProgressUpdate → Option α) (c : Call)
    (cs : List Call) (d : α) :
    (lastSet f (c :: cs)).getD d = (lastSet f cs).getD ((f c.upd).getD d) := by
  simp only [lastSet]
  cases lastSet f cs with
  | some v => rfl
  | none => cases f c.upd <;> rfl

theorem correctCount_nil_sels (qs : List Question) : correctCount qs [] = 0 := by
  induction qs with
  | nil => rfl
  | cons q qs ih => simpa [correctCount] using ih

theorem correctCount_le (qs : List Question) (sels : List (Option Nat)) :
    correctCount qs sels ≤ qs.length := by
  induction qs generalizing sels with
  | nil => simp [correctCount]
  | cons q qs ih =>
    cases sels with
    | nil =>
      rw [correctCount, correctCount_nil_sels]
      simp
    | cons s ss =>
      have := ih ss
      rw [correctCount, List.length_cons]
      split <;> omega

theorem roundDiv_le_100 (c n : Nat) (hc : c ≤ n) (hn : 0 < n) :
    roundDiv (100 * c) n ≤ 100 := by
  have hlt : (2 * (100 * c) + n) / (2 * n) < 101 := by
    apply Nat.div_lt_of_lt_mul
    omega
  rw [roundDiv]
  omega

/-- Claim C1: starting from the empty map, after any finite sequence of
`updateProgress` calls the record for a topic updated at least once holds,
in each of the four documented fields, the last value written for that
field, or the documented default (`completed = false`, `timeSpent = 0`,
`notes = ""`, `bookmarked = false`) when the field never appeared in any
update; fields absent from a partial update are thereby preserved
unchanged across that call. -/
theorem updateProgress_merge_invariant (calls : List Call) (t : String)
    (h : callsFor t calls ≠ []) :
    ∃ r, getRec t (applyCalls calls []) = some r
      ∧ r.completed = (lastSet (fun u => u.completed) (callsFor t calls)).getD false
      ∧ r.timeSpent = (lastSet (fun u => u.timeSpent) (callsFor t calls)).getD 0
      ∧ r.notes = (lastSet (fun u => u.notes) (callsFor t calls)).getD ""
      ∧ r.bookmarked = (lastSet (fun u => u.bookmarked) (callsFor t calls)).getD false := by
  obtain ⟨c, cs, hcs⟩ := List.exists_cons_of_ne_nil h
  refine ⟨mergeFold (applyUpdate (defaultRecord c.now) c.upd) cs, ?_, ?_, ?_, ?_, ?_⟩
  · rw [getRec_applyCalls, hcs]
    exact applySingle_some _ cs
  · rw [hcs, mergeFold_completed, lastSet_cons_getD]
    rfl
  · rw [hcs, mergeFold_timeSpent, lastSet_cons_getD]
    rfl
  · rw [hcs, mergeFold_notes, lastSet_cons_getD]
    rfl
  · rw [hcs, mergeFold_bookmarked, lastSet_cons_getD]
    rfl

/-- Witness for C1: the spec's own example — bookmark topic `a`, then write
a note on it. -/
theorem updateProgress_merge_invariant_witness :
    ∃ r, getRec "a" (applyCalls demoCalls []) = some r
      ∧ r.completed = (lastSet (fun u => u.completed) (callsFor "a" demoCalls)).getD false
      ∧ r.timeSpent = (lastSet (fun u => u.timeSpent) (callsFor "a" demoCalls)).getD 0
      ∧ r.notes = (lastSet (fun u => u.notes) (callsFor "a" demoCalls)).getD ""
      ∧ r.bookmarked = (lastSet (fun u => u.bookmarked) (callsFor "a" demoCalls)).getD false :=
  updateProgress_merge_invariant demoCalls "a" (by decide)

/-- Counterexample to C2 as stated: seventeen distinct topics marked
completed — reachable through the public `updateProgress` entry point,
which accepts unknown topic ids — give a completion percentage of 106,
outside [0, 100]. -/
theorem getCompletionPercentage_can_exceed_100 :
    getCompletionPercentage (applyCalls seventeenCalls []) = 106
    ∧ ¬ getCompletionPercentage (applyCalls seventeenCalls []) ≤ 100 := by
  refine ⟨by decide, by decide⟩

/-- Claim C2 (amended): `getCompletionPercentage` returns
`round(100 * completedCount / 16)` with the fixed catalog constant 16; the
result lies in [0, 100] whenever at most 16 records are completed (in
particular for any map over the 16-topic catalog), and equals 25 when
exactly 4 records are completed. -/
theorem getCompletionPercentage_spec (m : ProgressMap)
    (h : completedCount m ≤ 16) :
    getCompletionPercentage m = roundDiv (100 * completedCount m) 16
    ∧ getCompletionPercentage m ≤ 100
    ∧ (completedCount m = 4 → getCompletionPercentage m = 25) := by
  refine ⟨by rw [getCompletionPercentage, Nat.mul_comm], ?_, ?_⟩
  · rw [getCompletionPercentage, Nat.mul_comm]
    exact roundDiv_le_100 _ _ h (by omega)
  · intro h4
    rw [getCompletionPercentage, h4]
    decide

/-- Witness for C2 (amended): four distinct topics marked completed give
25 percent. -/
theorem getCompletionPercentage_spec_witness :
    getCompletionPercentage (applyCalls fourCalls []) ≤ 100
    ∧ getCompletionPercentage (applyCalls fourCalls []) = 25 :=
  ⟨(getCompletionPercentage_spec _ (by decide)).2.1,
   (getCompletionPercentage_spec _ (by decide)).2.2 (by decide)⟩

/-- Claim C3 (documents the divergence): on an empty question list the
engine does finish immediately — advancing from the initial state
transitions straight to the finished state — but `calculateScore`
evaluates `Math.round((0/0) * 100) = NaN` (modelled `none`) instead of the
score 0 the spec requires. -/
theorem emptyQuiz_finishes_with_nan_score :
    nextQuestion [] initialQuizState
      = ({ initialQuizState with showResults := true, quizCompleted := true },
          some none)
    ∧ calculateScore [] [] = none
    ∧ calculateScore [] [] ≠ some 0 := by
  refine ⟨rfl, rfl, by decide⟩

/-- Claim C4: on a non-empty question list `calculateScore` returns
`round(100 * correctCount / totalQuestions)`, where a question counts as
correct exactly when its stored selection equals its `correctAnswer`, a
fully unanswered quiz counts zero correct, and the score never exceeds
100; the spec's 3-question quiz scores 67 on `[1,2,1]` and 100 on the
exact answers. -/
theorem calculateScore_spec (qs : List Question) (sels : List (Option Nat))
    (h : qs ≠ []) :
    calculateScore qs sels = some (roundDiv (100 * correctCount qs sels) qs.length)
    ∧ correctCount qs sels ≤ qs.length
    ∧ roundDiv (100 * correctCount qs sels) qs.length ≤ 100
    ∧ correctCount qs [] = 0
    ∧ calculateScore demoQuestions [some 1, some 2, some 1] = some 67
    ∧ calculateScore demoQuestions [some 1, some 2, some 0] = some 100 := by
  have hn : qs.length ≠ 0 := by
    intro hl
    exact h (List.length_eq_zero.mp hl)
  refine ⟨?_, correctCount_le qs sels, ?_, correctCount_nil_sels qs,
    by decide, by decide⟩
  · rw [calculateScore, if_neg hn, Nat.mul_comm]
  · exact roundDiv_le_100 _ _ (correctCount_le qs sels) (by omega)

/-- Witness for C4 at the spec's 3-question quiz with selections `[1,2,1]`. -/
theorem calculateScore_spec_witness :
    calculateScore demoQuestions [some 1, some 2, some 1]
      = some (roundDiv (100 * correctCount demoQuestions [some 1, some 2, some 1])
          demoQuestions.length)
    ∧ calculateScore demoQuestions [some 1, some 2, some 1] = some 67 :=
  ⟨(calculateScore_spec demoQuestions [some 1, some 2, some 1] (by decide)).1,
   (calculateScore_spec demoQuestions [some 1, some 2, some 1] (by decide)).2.2.2.2.1⟩

/-- Claim C5: quiz navigation saturates — `previousQuestion` at index 0 is
the identity and never touches the selections, and `nextQuestion` at the
last question sets the finished flags without moving the index. -/
theorem quiz_navigation_saturates (qs : List Question) (s : QuizState) :
    (s.currentQuestion = 0 → previousQuestion s = s)
    ∧ (previousQuestion s).selectedAnswers = s.selectedAnswers
    ∧ (s.currentQuestion + 1 = qs.length →
        (nextQuestion qs s).1.quizCompleted = true
        ∧ (nextQuestion qs s).1.showResults = true
        ∧ (nextQuestion qs s).1.currentQuestion = s.currentQuestion) := by
  refine ⟨?_, ?_, ?_⟩
  · intro h0
    simp [previousQuestion, h0]
  · rw [previousQuestion]
    split <;> rfl
  · intro hl
    have hno : ¬ s.currentQuestion < qs.length - 1 := by omega
    simp [nextQuestion, hno]

/-- Witness for C5: retreating from the initial state is a no-op, and
advancing from the last question of the demo quiz finishes the session. -/
theorem quiz_navigation_saturates_witness :
    previousQuestion initialQuizState = initialQuizState
    ∧ (nextQuestion demoQuestions quizAtLast).1.quizCompleted = true :=
  ⟨(quiz_navigation_saturates demoQuestions initialQuizState).1 rfl,
   ((quiz_navigation_saturates demoQuestions quizAtLast).2.2 (by decide)).1⟩

/-- Claim C6: `updateSettings` always persists the merged settings record
(and installs it in memory) regardless of `autoSave`, while
`updateProgress` persists the progress map exactly when `autoSave` is
true — in particular, with `autoSave = false` it leaves the persisted
progress entry unchanged. -/
theorem settings_persist_unconditionally (s : StoreState) (now : Nat)
    (hookId : String) (u : ProgressUpdate) (v : SettingsUpdate) :
    (updateSettingsOp v s).storedSettings = some (applySettingsUpdate s.settings v)
    ∧ (updateSettingsOp v s).settings = applySettingsUpdate s.settings v
    ∧ (s.settings.autoSave = false →
        (updateProgressOp now hookId u s).storedProgress = s.storedProgress)
    ∧ (s.settings.autoSave = true →
        (updateProgressOp now hookId u s).storedProgress
          = some (updateProgress now hookId u s.progress)) := by
  refine ⟨rfl, rfl, ?_, ?_⟩ <;> intro h <;> simp [updateProgressOp, h]

/-- Witness for C6: the spec's scenario — with `autoSave` off, an
`updateProgress` call leaves storage untouched, and a subsequent
`updateSettings({autoSave: true})` still persists the settings record. -/
theorem settings_persist_unconditionally_witness :
    (updateProgressOp 0 "a" { completed := some true } demoStateOff).storedProgress
      = demoStateOff.storedProgress
    ∧ (updateSettingsOp { autoSave := some true } demoStateOff).storedSettings
      = some (applySettingsUpdate demoStateOff.settings { autoSave := some true }) :=
  ⟨(settings_persist_unconditionally demoStateOff 0 "a"
      { completed := some true } { autoSave := some true }).2.2.1 rfl,
   (settings_persist_unconditionally demoStateOff 0 "a"
      { completed := some true } { autoSave := some true }).1⟩

/-- Counterexample to C7 as stated: `timeSpent` is last-write-wins like
every other field, so a later smaller write decreases it — and a negative
write makes it negative — with no reset involved. -/
theorem timeSpent_not_monotone :
    ((getRec "a" (applyCalls
        [ { now := 0, hookId := "a", upd := { timeSpent := some 5 } } ] [])).map
      (fun r => r.timeSpent)) = some 5
    ∧ ((getRec "a" (applyCalls
        [ { now := 0, hookId := "a", upd := { timeSpent := some 5 } },
          { now := 1, hookId := "a", upd := { timeSpent := some 3 } } ] [])).map
      (fun r => r.timeSpent)) = some 3
    ∧ ((getRec "a" (updateProgress 0 "a" { timeSpent := some (-1) } [])).map
      (fun r => r.timeSpent)) = some (-1) := by
  refine ⟨by decide, by decide, by decide⟩

/-- Claim C7 (amended): the store itself does not enforce monotonicity —
`timeSpent` is the last value written — but under the repository's own
write pattern, the teardown effect writing previous + elapsed with a
non-negative whole number of elapsed seconds, `timeSpent` never decreases
and stays non-negative. -/
theorem closeTopic_timeSpent_monotone (now : Nat) (hookId : String)
    (elapsed : Nat) (m : ProgressMap) :
    ((getRec hookId (closeTopic now hookId elapsed m)).map (fun r => r.timeSpent))
      = some ((((getRec hookId m).map (fun r => r.timeSpent)).getD 0)
          + (elapsed : Int))
    ∧ (((getRec hookId m).map (fun r => r.timeSpent)).getD 0)
        ≤ (((getRec hookId (closeTopic now hookId elapsed m)).map
            (fun r => r.timeSpent)).getD 0)
    ∧ (0 ≤ (((getRec hookId m).map (fun r => r.timeSpent)).getD 0) →
        0 ≤ (((getRec hookId (closeTopic now hookId elapsed m)).map
            (fun r => r.timeSpent)).getD 0)) := by
  have h1 : ((getRec hookId (closeTopic now hookId elapsed m)).map
        (fun r => r.timeSpent))
      = some ((((getRec hookId m).map (fun r => r.timeSpent)).getD 0)
          + (elapsed : Int)) := by
    rw [closeTopic, getRec_updateProgress_self]
    rfl
  refine ⟨h1, ?_, ?_⟩
  · rw [h1]
    simp only [Option.getD_some]
    omega
  · intro h0
    rw [h1]
    simp only [Option.getD_some]
    omega

/-- Witness for C7 (amended): closing a fresh topic after 7 seconds leaves
a non-negative accumulated time. -/
theorem closeTopic_timeSpent_monotone_witness :
    0 ≤ (((getRec "a" (closeTopic 0 "a" 7 [])).map
        (fun r => r.timeSpent)).getD 0) :=
  (closeTopic_timeSpent_monotone 0 "a" 7 []).2.2 (by decide)

/-- Claim C8: `resetProgress` is idempotent — applied twice it yields the
empty map both times (indeed the same provider state), and immediately
after a reset both aggregates are 0. -/
theorem resetProgress_idempotent (s : StoreState) :
    (resetProgressOp s).progress = []
    ∧ (resetProgressOp (resetProgressOp s)).progress = []
    ∧ resetProgressOp (resetProgressOp s) = resetProgressOp s
    ∧ getTotalTimeSpent (resetProgressOp s).progress = 0
    ∧ getCompletionPercentage (resetProgressOp s).progress = 0 := by
  refine ⟨rfl, rfl, ?_, rfl, ?_⟩
  · simp [resetProgressOp]
  · show getCompletionPercentage [] = 0
    decide

/-- Counterexample to C9 as stated: with `autoSave` on, the persistence
effect re-runs right after `resetProgress` removes the storage key and
writes the now-empty map back, so the persisted progress entry is present
(holding the empty map), not removed. -/
theorem resetProgress_rewrites_entry :
    (resetProgressOp demoStateOn).storedProgress = some []
    ∧ (resetProgressOp demoStateOn).storedProgress ≠ none := by
  refine ⟨rfl, by decide⟩

/-- Claim C9 (amended): `resetProgress` clears the map to empty and leaves
the settings record, in memory and in durable storage, unchanged; the
persisted progress entry ends up absent when `autoSave` is false, but when
`autoSave` is true the persistence effect immediately re-writes it, so it
ends up present and holding the empty map. -/
theorem resetProgress_frame (s : StoreState) :
    (resetProgressOp s).progress = []
    ∧ (resetProgressOp s).settings = s.settings
    ∧ (resetProgressOp s).storedSettings = s.storedSettings
    ∧ (s.settings.autoSave = false → (resetProgressOp s).storedProgress = none)
    ∧ (s.settings.autoSave = true → (resetProgressOp s).storedProgress = some []) := by
  refine ⟨rfl, rfl, rfl, ?_, ?_⟩ <;> intro h <;> simp [resetProgressOp, h]

/-- Witness for C9 (amended): resetting with `autoSave` on leaves an empty
persisted entry; with `autoSave` off the entry is absent. -/
theorem resetProgress_frame_witness :
    (resetProgressOp demoStateOn).progress = []
    ∧ (resetProgressOp demoStateOn).storedProgress = some []
    ∧ (resetProgressOp demoStateOff).storedProgress = none :=
  ⟨(resetProgress_frame demoStateOn).1,
   (resetProgress_frame demoStateOn).2.2.2.2 rfl,
   (resetProgress_frame demoStateOff).2.2.2.1 rfl⟩

/-- Claim C10: the quiz-completion callback unconditionally overwrites the
topic's `completed` flag with `score >= 70`; in particular a topic
previously marked completed is set back to not-completed by a quiz score
below 70. -/
theorem handleQuizComplete_overwrites (now : Nat) (hookId : String)
    (score : Nat) (m : ProgressMap) :
    (getRec hookId (handleQuizComplete now hookId score m)).map
        (fun r => r.completed) = some (decide (70 ≤ score))
    ∧ (score < 70 →
        (getRec hookId m).map (fun r => r.completed) = some true →
        (getRec hookId (handleQuizComplete now hookId score m)).map
            (fun r => r.completed) = some false) := by
  have h1 : (getRec hookId (handleQuizComplete now hookId score m)).map
        (fun r => r.completed) = some (decide (70 ≤ score)) := by
    rw [handleQuizComplete, getRec_updateProgress_self]
    rfl
  refine ⟨h1, fun hs _ => ?_⟩
  rw [h1, decide_eq_false (by omega)]

/-- Witness for C10: a topic manually marked completed is demoted to
not-completed by a failing quiz score of 60. -/
theorem handleQuizComplete_overwrites_witness :
    (getRec "a" (handleQuizComplete 0 "a" 60 demoCompletedMap)).map
        (fun r => r.completed) = some false :=
  (handleQuizComplete_overwrites 0 "a" 60 demoCompletedMap).2
    (by decide) (by decide)
